import Mathlib

/-!
Verification of the projection-and-rendering engine of the
Satellite-Propagation-Toolkit repository, as a shallow embedding.

Embedding conventions:
* Python floats are modelled as real numbers; `float('nan')` results of the
  external propagator are modelled as `none` in an `Option`-valued component.
* Python `int(x)` (truncation toward zero) is `pyInt`.
* Python strings are Lean `String`s; `str.lower()` is `pyLower` (ASCII).
* Mutable state (the shared mutable default argument of `SatFrame.__init__`
  in `src/projectionmodels.py`, and object identity of `RGB` values in
  `src/rgb.py`) is modelled by explicit state passing; see the comments at
  the corresponding definitions.
-/

namespace SatToolkit

/-! ### RGB pixels (src/rgb.py) -/

/-- Clamp a channel value to [0, 255], as `max(0, min(255, v))`. -/
def clampChannel (v : ℤ) : ℤ := max 0 (min 255 v)

/-- An RGB triple; channels are integers (Python ints). -/
structure RGB where
  R : ℤ
  G : ℤ
  B : ℤ
  deriving DecidableEq, Repr

/-- Value-level semantics of `RGB.__init__`: channels are clamped to [0,255]. -/
def RGB.init (r g b : ℤ) : RGB := ⟨clampChannel r, clampChannel g, clampChannel b⟩

/-- Value-level semantics of `RGB.__add__`: per-channel saturating addition
with clamp to [0,255].  (The in-place mutation performed by `__add__` is
modelled separately by `rgbAddRef` below.) -/
def RGB.add (a b : RGB) : RGB :=
  ⟨clampChannel (a.R + b.R), clampChannel (a.G + b.G), clampChannel (a.B + b.B)⟩

/-! ### Object-identity model for `RGB.__add__` (src/rgb.py, lines 28-32)

Python `a + b` on `RGB` mutates `a` in place and returns `a` itself.  We model
the Python heap as a list of `RGB` values and RGB object references as indices
into it. -/

/-- A heap of RGB objects. -/
abbrev RGBHeap : Type := List RGB

/-- A reference to an RGB object in the heap. -/
abbrev RGBRef : Type := ℕ

/-- Dereference an RGB object. -/
def heapGet (h : RGBHeap) (r : RGBRef) : RGB := List.getD h r ⟨0, 0, 0⟩

/-- Overwrite an RGB object in place. -/
def heapSet (h : RGBHeap) (r : RGBRef) (v : RGB) : RGBHeap := List.set h r v

/-- Heap-level semantics of `RGB.__add__`: each channel of the object `a`
is overwritten with the clamped sum, and the reference returned is `a`
itself (the statement is `self.R = ...; self.G = ...; self.B = ...;
return self`). -/
def rgbAddRef (h : RGBHeap) (a b : RGBRef) : RGBHeap × RGBRef :=
  (heapSet h a (RGB.add (heapGet h a) (heapGet h b)), a)

/-- Heap-level semantics of `AlwaysPixelModifier.handle` (src/analysis.py,
lines 35-36): `return rgb + self.modifier`, where `modRef` is the reference
held by the modifier object and `rgb` the reference passed in. -/
def alwaysHandleRef (h : RGBHeap) (modRef rgb : RGBRef) : RGBHeap × RGBRef :=
  rgbAddRef h rgb modRef

/-! ### Image frames (src/matrix.py) -/

/-- An `ImageFrame` together with the dimensions of its `Matrix`.  The pixel
buffer is the flat list `_pixels`, indexed by `_idx(x, y) = y * width + x`.
Out-of-range reads are modelled as black (the source never reads out of
range: the projection bounds checks guarantee valid indices). -/
structure ImageFrame where
  width : ℕ
  height : ℕ
  pixels : List RGB
  deriving DecidableEq, Repr

/-- The flat index `_idx(x, y) = (y * self._matrix.width) + x`. -/
def ImageFrame.idx (f : ImageFrame) (x y : ℕ) : ℕ := y * f.width + x

/-- `ImageFrame.get_pixel`. -/
def ImageFrame.get_pixel (f : ImageFrame) (x y : ℕ) : RGB :=
  List.getD f.pixels (f.idx x y) ⟨0, 0, 0⟩

/-- `ImageFrame.set_pixel`. -/
def ImageFrame.set_pixel (f : ImageFrame) (x y : ℕ) (c : RGB) : ImageFrame :=
  { f with pixels := List.set f.pixels (f.idx x y) c }

/-- `Matrix._empty_frame` / the `ImageFrame` constructor: an all-black buffer
of `width * height` pixels (`[RGB() for _ in range(len(matrix))]`). -/
def emptyFrame (w h : ℕ) : ImageFrame :=
  ⟨w, h, List.replicate (w * h) ⟨0, 0, 0⟩⟩

/-! ### Device interface (src/deviceinterface.py)

Wire instructions produced by `DeviceInterface`; `set_pixel` is op 1 and
`clear_display` is op 2 of the device sink protocol. -/

/-- One instruction sent over the serial link. -/
inductive Instr where
  | setPixel (x y : ℕ) (c : RGB)
  | clearDisplay
  deriving DecidableEq, Repr

/-- The body of the closure `update_px` in `DeviceInterface.upload_frame`:
compare the last frame's pixel with the new frame's pixel and emit a
`set_pixel` instruction when they differ. -/
def updatePx (last cur : ImageFrame) (x y : ℕ) : List Instr :=
  if last.get_pixel x y ≠ cur.get_pixel x y then
    [Instr.setPixel x y (cur.get_pixel x y)]
  else []

/-- `ImageFrame._for_grid`: iterate `y` over `range(height)` and, inside,
`x` over `range(width)`, collecting the instructions emitted. -/
def forGrid (f : ImageFrame) (g : ℕ → ℕ → List Instr) : List Instr :=
  (List.range f.height).flatMap fun y => (List.range f.width).flatMap fun x => g x y

/-- `DeviceInterface.upload_frame`: if no previous frame exists, a blank frame
is created for comparison and a `clear_display` instruction is sent first;
then `update_px` runs over the whole grid; finally the frame is saved as the
new last frame.  Returns the emitted instruction list and the new
`_last_frame`. -/
def uploadFrame (lastFrame : Option ImageFrame) (frame : ImageFrame) :
    List Instr × ImageFrame :=
  match lastFrame with
  | none =>
      (Instr.clearDisplay ::
        forGrid frame (updatePx (emptyFrame frame.width frame.height) frame), frame)
  | some last => (forGrid frame (updatePx last frame), frame)

/-! ### Catalog model (src/models.py) -/

/-- ASCII lowercasing of one character, as Python `str.lower()` acts on the
ASCII names and tags used by the catalog sources. -/
def lowerChar (c : Char) : Char :=
  if 'A' ≤ c ∧ c ≤ 'Z' then Char.ofNat (c.toNat + 32) else c

/-- Python `s.lower()`. -/
def pyLower (s : String) : String := String.mk (s.data.map lowerChar)

/-- Whether `pat` is a prefix of `s` (character lists). -/
def listPre : List Char → List Char → Bool
  | [], _ => true
  | _ :: _, [] => false
  | a :: as, b :: bs => a = b && listPre as bs

/-- Python's substring test `pat in s` on character lists. -/
def hasSub (pat s : List Char) : Bool := s.tails.any fun t => listPre pat t

/-- Python's substring test `pat in s` on strings. -/
def strHasSub (pat s : String) : Bool := hasSub pat.data s.data

/-- A `Sat` record: identity is the name; the mutable tag list is carried
alongside.  (The opaque propagator handle and launch date play no role in
the deduplication claims.) -/
structure Sat where
  name : String
  tags : List String
  deriving DecidableEq, Repr

/-- `Sat.add_tag`: skip falsy (empty) tags, lowercase, append if not already
present. -/
def addTag (tags : List String) (tag : String) : List String :=
  if tag = "" then tags
  else if pyLower tag ∈ tags then tags else tags ++ [pyLower tag]

/-- `Sat.add_tags`: add each tag in order. -/
def addTags (tags : List String) (new : List String) : List String :=
  new.foldl addTag tags

/-- `Sat.in_tags`: whether `word` occurs as a substring of any tag. -/
def in_tags (s : Sat) (word : String) : Bool :=
  s.tags.any fun tag => strHasSub word tag

/-- `Sat.generate_debris_tag`: add a `"debris"` tag when `"deb"` occurs in
the lowercased name or in any tag. -/
def generate_debris_tag (s : Sat) : Sat :=
  if strHasSub "deb" (pyLower s.name) || in_tags s "deb" then
    { s with tags := addTag s.tags "debris" }
  else s

/-- One step of `Sats.remove_duplicates`: insert a record into the
name-keyed dictionary (modelled as an insertion-ordered list).  A repeated
name merges the new record's tags into the already-stored record via
`add_tags`; a new name is appended. -/
def dedupInsert (acc : List Sat) (s : Sat) : List Sat :=
  if acc.any (fun r => r.name = s.name) then
    acc.map fun r =>
      if r.name = s.name then { r with tags := addTags r.tags s.tags } else r
  else acc ++ [s]

/-- `Sats.remove_duplicates`: fold the records through the dictionary and
keep the dictionary's values (first-seen insertion order). -/
def remove_duplicates (l : List Sat) : List Sat := l.foldl dedupInsert []

/-- `Sats.__init__`: deduplicate, then give each kept record its debris tag
when applicable. -/
def satsInit (l : List Sat) : List Sat :=
  (remove_duplicates l).map generate_debris_tag

/-- Reference recursion for `remove_duplicates`: the first record of the
input absorbs the tags of all later records with the same name, and the
remaining names are processed recursively. -/
def mergeAll : List Sat → List Sat
  | [] => []
  | s :: rest =>
    { s with
        tags := addTags s.tags
          (((rest.filter fun r => r.name = s.name).map Sat.tags).flatten) } ::
      mergeAll (rest.filter fun r => ¬ r.name = s.name)
termination_by l => l.length
decreasing_by
  simp only [List.length_cons]
  exact Nat.lt_succ_of_le (List.length_filter_le _ rest)

/-- Absorb into `r` the tags of every record of `l` that bears `r`'s name
(used to state the accumulator invariant of `remove_duplicates`). -/
def extendBy (l : List Sat) (r : Sat) : Sat :=
  { r with
      tags := addTags r.tags (((l.filter fun q => q.name = r.name).map Sat.tags).flatten) }

/-! ### Placed records (src/models.py, class SatPosition)

`SatPosition(sat, x, y, *, altiude=-1, distance=-1)`: integer cell
coordinates plus the two optional derived scalars, `-1` being the
"not applicable" sentinel.  The scalar type is a parameter: the projection
models instantiate it with `ℝ` (Python floats), while the executable
compositing-rule theorems instantiate it with `ℚ`. -/
structure SatPosition (α : Type) where
  sat : ℕ
  x : ℤ
  y : ℤ
  altitude : α
  distance : α

/-! ### Compositing rules (src/analysis.py)

The fallible handlers are modelled in `Except`: `.error` is a raised
Python exception. -/

/-- `AltitudeModifier.__init__` parameters. -/
structure AltitudeModifier where
  min_alt : ℚ
  max_alt : ℚ
  modifier : RGB

/-- `AltitudeModifier.handle`: raise when the placed record carries the
`-1` altitude sentinel, otherwise add the rule's delta when the altitude
lies strictly between the bounds. -/
def AltitudeModifier.handle (m : AltitudeModifier) (sat : SatPosition ℚ) (rgb : RGB) :
    Except String RGB :=
  if sat.altitude = -1 then
    Except.error "No altitude specified with sat, orbit altitude modifier is not support for this reference frame"
  else if m.min_alt < sat.altitude ∧ m.max_alt > sat.altitude then
    Except.ok (RGB.add rgb m.modifier)
  else Except.ok rgb

/-- `DistanceModifier.__init__` parameters. -/
structure DistanceModifier where
  min_distance : ℚ
  max_distance : ℚ
  modifier : RGB

/-- `DistanceModifier.handle`: raise when the placed record carries the
`-1` distance sentinel, otherwise add the rule's delta when the distance
lies strictly between the bounds. -/
def DistanceModifier.handle (m : DistanceModifier) (sat : SatPosition ℚ) (rgb : RGB) :
    Except String RGB :=
  if sat.distance = -1 then
    Except.error "No distance specified with sat, orbit altitude modifier is not support for this reference frame"
  else if m.min_distance < sat.distance ∧ m.max_distance > sat.distance then
    Except.ok (RGB.add rgb m.modifier)
  else Except.ok rgb

/-- An `ImageFrame` viewed at the object level: the pixel buffer holds
references into the RGB heap (Python's `_pixels` list holds the objects
themselves; `get_pixel` returns the object, not a copy). -/
structure ImageFrameRef where
  width : ℕ
  height : ℕ
  pixels : List RGBRef

/-- `ImageFrame.get_pixel` at the object level: returns the reference
stored at `_idx(x, y)`. -/
def ImageFrameRef.get_pixel (f : ImageFrameRef) (x y : ℕ) : RGBRef :=
  List.getD f.pixels (y * f.width + x) 0

end SatToolkit

noncomputable section

namespace SatToolkit

/-! ### Projection models (src/projectionmodels.py)

Python floats are modelled as real numbers; a propagation returning NaN in
a component is modelled by `none`. -/

/-- `EARTH_RADIUS = 6371  # [km] mean radius`. -/
def EARTH_RADIUS : ℝ := 6371

/-- `math.radians`. -/
def rad (d : ℝ) : ℝ := d * Real.pi / 180

/-- `math.degrees`. -/
def deg (r : ℝ) : ℝ := r * 180 / Real.pi

/-- Python `int(x)` applied to a float: truncation toward zero. -/
def pyInt (x : ℝ) : ℤ := if 0 ≤ x then ⌊x⌋ else ⌈x⌉

namespace TopocentricProjectionModel

/-- The loop body of `TopocentricProjectionModel.generate_sat_frame` for one
record: propagation result `(alt, azi, distance)` (a `none` component is a
NaN), azimuth rotation by +90, tangent-plane offsets, truncation to cell
indices with bounds checks, and the derived ground altitude. -/
def placeSat (w h : ℕ) (x_width y_width : ℝ) (satId : ℕ)
    (res : Option ℝ × Option ℝ × Option ℝ) : Option (SatPosition ℝ) :=
  match res with
  | (some alt, some azi, some distance) =>
    let azi2 := azi + 90
    let N := (90 - alt) * Real.sin (rad azi2)
    let E := (90 - alt) * Real.cos (rad azi2)
    let x := pyInt (E / x_width + (w : ℝ) / 2)
    if x < 0 ∨ (w : ℤ) ≤ x then none
    else
      let y := pyInt (N / y_width + (h : ℝ) / 2)
      if y < 0 ∨ (h : ℤ) ≤ y then none
      else
        let alt_distance := Real.sqrt (distance ^ 2 + EARTH_RADIUS ^ 2 -
          2 * distance * EARTH_RADIUS * Real.cos (rad (alt + 90))) - EARTH_RADIUS
        some ⟨satId, x, y, alt_distance, distance⟩
  | _ => none

/-- `TopocentricProjectionModel.generate_sat_frame`: the list of placed
records appended by the per-record loop, given the propagation results
`propagate`.  (The topocentric variant builds a fresh local list and passes
it to `SatFrame` explicitly.) -/
def generate_sat_frame (w h : ℕ) (x_width y_width : ℝ) (sats : List ℕ)
    (propagate : ℕ → Option ℝ × Option ℝ × Option ℝ) : List (SatPosition ℝ) :=
  sats.filterMap fun s => placeSat w h x_width y_width s (propagate s)

/-- Modelled from the spec (for comparison with the source): the same cell
mapping but with mathematical floor in place of Python `int` truncation, as
worded in spec section 4.2 step 3: `x = floor(east / cellWidth + width/2)`,
`y = floor(north / cellHeight + height/2)`, out-of-range indices dropped. -/
def specFloorPlaceSat (w h : ℕ) (x_width y_width : ℝ) (satId : ℕ)
    (res : Option ℝ × Option ℝ × Option ℝ) : Option (SatPosition ℝ) :=
  match res with
  | (some alt, some azi, some distance) =>
    let azi2 := azi + 90
    let N := (90 - alt) * Real.sin (rad azi2)
    let E := (90 - alt) * Real.cos (rad azi2)
    let x := ⌊E / x_width + (w : ℝ) / 2⌋
    if x < 0 ∨ (w : ℤ) ≤ x then none
    else
      let y := ⌊N / y_width + (h : ℝ) / 2⌋
      if y < 0 ∨ (h : ℤ) ≤ y then none
      else
        let alt_distance := Real.sqrt (distance ^ 2 + EARTH_RADIUS ^ 2 -
          2 * distance * EARTH_RADIUS * Real.cos (rad (alt + 90))) - EARTH_RADIUS
        some ⟨satId, x, y, alt_distance, distance⟩
  | _ => none

end TopocentricProjectionModel

namespace GeocentricProjectionModel

/-- The loop body of `GeocentricProjectionModel.generate_sat_frame` for one
record: propagation result `(lat, lon, alt)` (a `none` component is a NaN),
truncation to cell indices with bounds checks, the latitude axis flipped by
`y = height - int(...)`; the placed record carries the propagated altitude
and the `-1` distance sentinel. -/
def placeSat (w h : ℕ) (x_width y_width olat olon : ℝ) (satId : ℕ)
    (res : Option ℝ × Option ℝ × Option ℝ) : Option (SatPosition ℝ) :=
  match res with
  | (some lat, some lon, some alt) =>
    let x := pyInt ((lon - olon) / x_width + (w : ℝ) / 2)
    if x < 0 ∨ (w : ℤ) ≤ x then none
    else
      let y := (h : ℤ) - pyInt ((lat - olat) / y_width + (h : ℝ) / 2)
      if y < 0 ∨ (h : ℤ) ≤ y then none
      else some ⟨satId, x, y, alt, -1⟩
  | _ => none

/-- The placed records appended by one call of the geocentric
`generate_sat_frame` loop (the records passed to `frame.add_sat` during
that call). -/
def computed_sats (w h : ℕ) (x_width y_width olat olon : ℝ) (sats : List ℕ)
    (propagate : ℕ → Option ℝ × Option ℝ × Option ℝ) : List (SatPosition ℝ) :=
  sats.filterMap fun s => placeSat w h x_width y_width olat olon s (propagate s)

end GeocentricProjectionModel

/-- The single list object created once as the default value of the `sats`
parameter of `SatFrame.__init__` (`def __init__(self, model, time,
sats: list[SatPosition] = [])`): Python evaluates the default expression
once, so every frame constructed without an explicit `sats` argument
aliases this one list. -/
structure DefaultSatList where
  content : List (SatPosition ℝ)

/-- What a `SatFrame`'s `_sats` attribute points at: either the shared
mutable default list, or a caller-supplied own list. -/
inductive SatListRef where
  | defaultList
  | own (l : List (SatPosition ℝ))

/-- Read a frame's `sats` property in the current state of the shared
default list. -/
def readSats (cell : DefaultSatList) : SatListRef → List (SatPosition ℝ)
  | SatListRef.defaultList => cell.content
  | SatListRef.own l => l

/-- `SatFrame.add_sat`: append to whichever list the frame references. -/
def addSat (cell : DefaultSatList) (r : SatListRef) (p : SatPosition ℝ) :
    DefaultSatList × SatListRef :=
  match r with
  | SatListRef.defaultList => (⟨cell.content ++ [p]⟩, SatListRef.defaultList)
  | SatListRef.own l => (cell, SatListRef.own (l ++ [p]))

namespace GeocentricProjectionModel

/-- `GeocentricProjectionModel.generate_sat_frame` with its state: the frame
is created as `SatFrame(self, t)` — without a `sats` argument, hence bound
to the shared default list — and each computed placement is appended via
`frame.add_sat`.  Returns the updated shared default list and the frame's
list reference. -/
def generate_sat_frame (cell : DefaultSatList) (w h : ℕ)
    (x_width y_width olat olon : ℝ) (sats : List ℕ)
    (propagate : ℕ → Option ℝ × Option ℝ × Option ℝ) :
    DefaultSatList × SatListRef :=
  (computed_sats w h x_width y_width olat olon sats propagate).foldl
    (fun st p => addSat st.1 st.2 p) (cell, SatListRef.defaultList)

/-- `GeocentricProjectionModel._FoV_relative_to_origin` (lines 292-311). -/
def FoV_relative_to_origin (observer_FoV alt : ℝ) : ℝ :=
  let B := 180 - 0.5 * observer_FoV
  let b := EARTH_RADIUS + alt
  let c := EARTH_RADIUS
  let C := deg (Real.arcsin (c / b * Real.sin (rad B)))
  let A := 180 - B - C
  2 * A

/-- `GeocentricProjectionModel._FoV_relative_to_observer` (lines 313-324). -/
def FoV_relative_to_observer (origin_FoV alt : ℝ) : ℝ :=
  let A := 0.5 * origin_FoV
  let b := EARTH_RADIUS + alt
  let c := EARTH_RADIUS
  let a := Real.sqrt (b ^ 2 + c ^ 2 - 2 * b * c * Real.cos (rad A))
  let B := deg (Real.arcsin (b / a * Real.sin (rad A)))
  let D := 180 - B
  2 * D

/-- `GeocentricProjectionModel._cell_width_and_height_from_FoV`
(lines 274-290): the desired observer FoV is first converted to an
origin-relative FoV at the hard-coded altitude of 2000 km, then spread over
the grid diagonal by the area-equivalent-circle formula. -/
def cell_width_and_height_from_FoV (w h : ℕ) (FoV : ℝ) : ℝ × ℝ :=
  (Real.sqrt ((4 * (FoV_relative_to_origin FoV 2000) ^ 2) /
      (Real.pi * ((w : ℝ) ^ 2 + (h : ℝ) ^ 2))),
    Real.sqrt ((4 * (FoV_relative_to_origin FoV 2000) ^ 2) /
      (Real.pi * ((w : ℝ) ^ 2 + (h : ℝ) ^ 2))))

/-- `GeocentricProjectionModel.effective_FoV` (lines 330-332). -/
def effective_FoV (w h : ℕ) (x_width y_width alt : ℝ) : ℝ :=
  FoV_relative_to_observer
    (0.5 * Real.sqrt (Real.pi *
      (((w : ℝ) * x_width) ^ 2 + ((h : ℝ) * y_width) ^ 2))) alt

end GeocentricProjectionModel

end SatToolkit

end

namespace SatToolkit

/-! ### Theorems for the frame and diff engine -/

theorem getD_replicate_self {α : Type} (a : α) (n i : ℕ) :
    List.getD (List.replicate n a) i a = a := by
  induction n generalizing i with
  | zero => simp [List.getD]
  | succ n ih =>
    cases i with
    | zero => simp [List.replicate]
    | succ i => simp [List.replicate, ih i]

theorem emptyFrame_get_pixel (w h x y : ℕ) :
    (emptyFrame w h).get_pixel x y = ⟨0, 0, 0⟩ := by
  simp [emptyFrame, ImageFrame.get_pixel, getD_replicate_self]

theorem mem_forGrid_updatePx_empty (f : ImageFrame) (i : Instr) :
    i ∈ forGrid f (updatePx (emptyFrame f.width f.height) f) ↔
      ∃ x y, x < f.width ∧ y < f.height ∧ i = Instr.setPixel x y (f.get_pixel x y) ∧
        f.get_pixel x y ≠ ⟨0, 0, 0⟩ := by
  simp only [forGrid, List.mem_flatMap, List.mem_range, updatePx, emptyFrame_get_pixel]
  constructor
  · rintro ⟨y, hy, x, hx, hi⟩
    by_cases hne : (⟨0, 0, 0⟩ : RGB) ≠ f.get_pixel x y
    · rw [if_pos hne] at hi
      simp only [List.mem_singleton] at hi
      exact ⟨x, y, hx, hy, hi, Ne.symm hne⟩
    · rw [if_neg hne] at hi
      simp at hi
  · rintro ⟨x, y, hx, hy, rfl, hne⟩
    refine ⟨y, hy, x, hx, ?_⟩
    rw [if_pos (Ne.symm hne)]
    simp

theorem nodup_forGrid_updatePx_empty (f : ImageFrame) :
    (forGrid f (updatePx (emptyFrame f.width f.height) f)).Nodup := by
  rw [forGrid, List.nodup_flatMap]
  constructor
  · intro y _
    rw [List.nodup_flatMap]
    constructor
    · intro x _
      unfold updatePx
      split <;> simp
    · refine List.Pairwise.imp ?_ (List.nodup_range f.width)
      intro x₁ x₂ hne i h1 h2
      simp only [updatePx, ne_eq] at h1 h2
      split at h1 <;> simp at h1
      split at h2 <;> simp at h2
      have h3 := h1.symm.trans h2
      simp only [Instr.setPixel.injEq] at h3
      exact hne h3.1
  · refine List.Pairwise.imp ?_ (List.nodup_range f.height)
    intro y₁ y₂ hne i h1 h2
    simp only [List.mem_flatMap, List.mem_range] at h1 h2
    obtain ⟨x₁, -, h1⟩ := h1
    obtain ⟨x₂, -, h2⟩ := h2
    simp only [updatePx, ne_eq] at h1 h2
    split at h1 <;> simp at h1
    split at h2 <;> simp at h2
    have h3 := h1.symm.trans h2
    simp only [Instr.setPixel.injEq] at h3
    exact hne h3.2.1

/-- C7: on the first upload (no previous frame), `upload_frame` sends one
`clear_display` instruction first, followed by exactly one `set_pixel`
instruction for each cell whose colour differs from black, and nothing
else. -/
theorem first_upload_clears_then_sets_exactly_nonblack (f : ImageFrame) :
    ∃ rest,
      (uploadFrame none f).1 = Instr.clearDisplay :: rest ∧
      rest.Nodup ∧
      (∀ i ∈ rest, ∃ x y c, i = Instr.setPixel x y c) ∧
      (∀ x y c, Instr.setPixel x y c ∈ rest ↔
        x < f.width ∧ y < f.height ∧ f.get_pixel x y = c ∧ c ≠ ⟨0, 0, 0⟩) := by
  refine ⟨forGrid f (updatePx (emptyFrame f.width f.height) f), rfl,
    nodup_forGrid_updatePx_empty f, ?_, ?_⟩
  · intro i hi
    obtain ⟨x, y, _, _, rfl, -⟩ := (mem_forGrid_updatePx_empty f i).mp hi
    exact ⟨x, y, _, rfl⟩
  · intro x y c
    rw [mem_forGrid_updatePx_empty]
    constructor
    · rintro ⟨x', y', hx, hy, heq, hne⟩
      obtain ⟨rfl, rfl, rfl⟩ := (Instr.setPixel.injEq _ _ _ _ _ _).mp heq
      exact ⟨hx, hy, rfl, hne⟩
    · rintro ⟨hx, hy, rfl, hne⟩
      exact ⟨x, y, hx, hy, rfl, hne⟩

/-! ### Theorems for the catalog model -/

theorem addTags_nil (t : List String) : addTags t [] = t := rfl

theorem addTags_cons (t : List String) (x : String) (xs : List String) :
    addTags t (x :: xs) = addTags (addTag t x) xs := rfl

theorem addTags_append (t a b : List String) :
    addTags t (a ++ b) = addTags (addTags t a) b :=
  List.foldl_append _ _ _ _

theorem addTag_extend (t : List String) (x : String) :
    ∃ extra, addTag t x = t ++ extra := by
  unfold addTag
  split
  · exact ⟨[], by simp⟩
  · split
    · exact ⟨[], by simp⟩
    · exact ⟨_, rfl⟩

theorem addTags_extend (new t : List String) :
    ∃ extra, addTags t new = t ++ extra := by
  induction new generalizing t with
  | nil => exact ⟨[], by simp [addTags_nil]⟩
  | cons x xs ih =>
    obtain ⟨e1, h1⟩ := addTag_extend t x
    obtain ⟨e2, h2⟩ := ih (addTag t x)
    exact ⟨e1 ++ e2, by rw [addTags_cons, h2, h1, List.append_assoc]⟩

theorem mem_addTag (t : List String) (x y : String) :
    y ∈ addTag t x ↔ y ∈ t ∨ (x ≠ "" ∧ y = pyLower x) := by
  unfold addTag
  split
  · rename_i h
    simp [h]
  · rename_i h
    split
    · rename_i hmem
      constructor
      · intro hy
        exact Or.inl hy
      · rintro (hy | ⟨-, rfl⟩)
        · exact hy
        · exact hmem
    · simp [h]

theorem mem_addTags (new t : List String) (y : String) :
    y ∈ addTags t new ↔ y ∈ t ∨ ∃ x ∈ new, x ≠ "" ∧ y = pyLower x := by
  induction new generalizing t with
  | nil => simp [addTags_nil]
  | cons x xs ih =>
    rw [addTags_cons, ih, mem_addTag]
    constructor
    · rintro ((hy | ⟨hx, hy⟩) | ⟨x', hx', hne, hy⟩)
      · exact Or.inl hy
      · exact Or.inr ⟨x, List.mem_cons_self x xs, hx, hy⟩
      · exact Or.inr ⟨x', List.mem_cons_of_mem x hx', hne, hy⟩
    · rintro (hy | ⟨x', hx', hne, hy⟩)
      · exact Or.inl (Or.inl hy)
      · rcases List.mem_cons.mp hx' with rfl | hx'
        · exact Or.inl (Or.inr ⟨hne, hy⟩)
        · exact Or.inr ⟨x', hx', hne, hy⟩

theorem name_update (q s : Sat) :
    (if q.name = s.name then { q with tags := addTags q.tags s.tags } else q).name
      = q.name := by
  split <;> rfl

theorem extendBy_name (l : List Sat) (r : Sat) : (extendBy l r).name = r.name := rfl

theorem extendBy_nil (r : Sat) : extendBy [] r = r := by
  cases r
  simp [extendBy, addTags_nil]

theorem extendBy_cons_of_eq (s : Sat) (t : List Sat) (r : Sat) (h : s.name = r.name) :
    extendBy (s :: t) r = { r with tags := (addTags (addTags r.tags s.tags)
      (((t.filter fun q => q.name = r.name).map Sat.tags).flatten)) } := by
  simp [extendBy, List.filter_cons, h, addTags_append]

theorem extendBy_cons_of_ne (s : Sat) (t : List Sat) (r : Sat) (h : ¬ s.name = r.name) :
    extendBy (s :: t) r = extendBy t r := by
  simp [extendBy, List.filter_cons, h]

theorem foldl_dedupInsert_eq (l : List Sat) :
    ∀ acc : List Sat,
      l.foldl dedupInsert acc =
        acc.map (extendBy l) ++
          mergeAll (l.filter fun r => !(acc.any fun q => q.name = r.name)) := by
  induction l with
  | nil =>
    intro acc
    simp only [List.foldl_nil, List.filter_nil, mergeAll, List.append_nil]
    rw [List.map_congr_left fun r _ => extendBy_nil r]
    simp
  | cons s t ih =>
    intro acc
    rw [List.foldl_cons]
    by_cases hmem : (acc.any fun q => q.name = s.name) = true
    · rw [show dedupInsert acc s = acc.map fun r =>
          if r.name = s.name then { r with tags := addTags r.tags s.tags } else r from
        by simp [dedupInsert, hmem]]
      rw [ih]
      have hA : ((acc.map fun r =>
          if r.name = s.name then { r with tags := addTags r.tags s.tags } else r).map
            (extendBy t)) = acc.map (extendBy (s :: t)) := by
        rw [List.map_map]
        apply List.map_congr_left
        intro r _
        by_cases hrs : r.name = s.name
        · simp only [Function.comp_apply, if_pos hrs]
          rw [extendBy_cons_of_eq s t r hrs.symm]
          simp [extendBy]
        · simp only [Function.comp_apply, if_neg hrs]
          rw [extendBy_cons_of_ne s t r fun h => hrs h.symm]
      have hB : (t.filter fun r =>
            !((acc.map fun q =>
              if q.name = s.name then { q with tags := addTags q.tags s.tags } else q).any
                fun q => q.name = r.name)) =
          ((s :: t).filter fun r => !(acc.any fun q => q.name = r.name)) := by
        rw [List.filter_cons]
        simp only [hmem, Bool.not_true, Bool.false_eq_true, if_false]
        apply List.filter_congr
        intro r _
        congr 1
        rw [List.any_map]
        congr 1
        funext q
        simp only [Function.comp_apply, name_update]
      rw [hA, hB]
    · rw [show dedupInsert acc s = acc ++ [s] from by simp [dedupInsert, hmem]]
      rw [ih]
      have hnames : ∀ q ∈ acc, ¬ q.name = s.name := by
        simp only [List.any_eq_true, decide_eq_true_eq, not_exists, not_and] at hmem
        exact hmem
      have hA : (acc ++ [s]).map (extendBy t) =
          acc.map (extendBy (s :: t)) ++ [extendBy t s] := by
        rw [List.map_append]
        congr 1
        apply List.map_congr_left
        intro r hr
        rw [extendBy_cons_of_ne s t r fun h => hnames r hr h.symm]
      have hfs : ((s :: t).filter fun r => !(acc.any fun q => q.name = r.name)) =
          s :: (t.filter fun r => !(acc.any fun q => q.name = r.name)) := by
        rw [List.filter_cons]
        have : (acc.any fun q => q.name = s.name) = false :=
          Bool.eq_false_iff.mpr hmem
        simp [this]
      have hhead : ((t.filter fun r => !(acc.any fun q => q.name = r.name)).filter
            fun q => q.name = s.name) = t.filter fun q => q.name = s.name := by
        rw [List.filter_filter]
        apply List.filter_congr
        intro q _
        by_cases hq : q.name = s.name
        · have hfalse : (acc.any fun p => p.name = s.name) = false := by
            simp only [List.any_eq_false, decide_eq_true_eq]
            exact hnames
          simp [hq, hfalse]
        · simp [hq]
      have htail : ((t.filter fun r => !(acc.any fun q => q.name = r.name)).filter
            fun r => ¬ r.name = s.name) =
          (t.filter fun r => !((acc ++ [s]).any fun q => q.name = r.name)) := by
        rw [List.filter_filter]
        apply List.filter_congr
        intro q _
        rw [List.any_append]
        simp only [List.any_cons, List.any_nil, Bool.or_false, Bool.not_or]
        by_cases hq : q.name = s.name
        · simp [hq]
        · have : (s.name = q.name) = False := by
            simp only [eq_iff_iff, iff_false]
            intro h
            exact hq h.symm
          simp [hq, this]
      rw [hA, hfs, mergeAll, hhead, htail, List.append_assoc]
      rfl

theorem remove_duplicates_eq_mergeAll (l : List Sat) :
    remove_duplicates l = mergeAll l := by
  rw [remove_duplicates, foldl_dedupInsert_eq]
  simp

theorem mem_map_name_mergeAll (l : List Sat) (n : String) :
    n ∈ (mergeAll l).map Sat.name ↔ n ∈ l.map Sat.name := by
  induction l using mergeAll.induct with
  | case1 => simp [mergeAll]
  | case2 s rest ih =>
    rw [mergeAll]
    simp only [List.map_cons, List.mem_cons, ih, List.mem_map, List.mem_filter,
      decide_eq_true_eq]
    constructor
    · rintro (h | ⟨r, ⟨hr, -⟩, rfl⟩)
      · exact Or.inl h
      · exact Or.inr ⟨r, hr, rfl⟩
    · rintro (h | ⟨r, hr, rfl⟩)
      · exact Or.inl h
      · by_cases hrs : r.name = s.name
        · exact Or.inl hrs
        · exact Or.inr ⟨r, ⟨hr, hrs⟩, rfl⟩

theorem nodup_map_name_mergeAll (l : List Sat) : ((mergeAll l).map Sat.name).Nodup := by
  induction l using mergeAll.induct with
  | case1 => simp [mergeAll]
  | case2 s rest ih =>
    rw [mergeAll]
    simp only [List.map_cons, List.nodup_cons]
    refine ⟨fun hmem => ?_, ih⟩
    rw [mem_map_name_mergeAll] at hmem
    simp only [List.mem_map, List.mem_filter, decide_eq_true_eq] at hmem
    obtain ⟨r, ⟨-, hne⟩, hr⟩ := hmem
    exact hne hr

theorem mergeAll_filter_name_ne (s : Sat) (rest : List Sat) (m : Sat)
    (hm : m ∈ mergeAll (rest.filter fun r => ¬ r.name = s.name)) :
    ¬ m.name = s.name := by
  have h1 : m.name ∈ (mergeAll (rest.filter fun r => ¬ r.name = s.name)).map Sat.name :=
    List.mem_map_of_mem Sat.name hm
  rw [mem_map_name_mergeAll] at h1
  simp only [List.mem_map, List.mem_filter, decide_eq_true_eq] at h1
  obtain ⟨r, ⟨-, hne⟩, hr⟩ := h1
  exact fun h => hne (hr ▸ h)

theorem mem_tags_mergeAll (l : List Sat)
    (hclean : ∀ r ∈ l, ∀ t ∈ r.tags, t ≠ "" ∧ pyLower t = t) :
    ∀ m ∈ mergeAll l, ∀ y, y ∈ m.tags ↔ ∃ r ∈ l, r.name = m.name ∧ y ∈ r.tags := by
  induction l using mergeAll.induct with
  | case1 => simp [mergeAll]
  | case2 s rest ih =>
    intro m hm y
    rw [mergeAll] at hm
    rcases List.mem_cons.mp hm with rfl | hm'
    · show y ∈ addTags s.tags _ ↔ _
      rw [mem_addTags]
      have hF : ∀ x : String,
          x ∈ (((rest.filter fun q => q.name = s.name).map Sat.tags).flatten) ↔
            ∃ r ∈ rest, r.name = s.name ∧ x ∈ r.tags := by
        intro x
        simp only [List.mem_flatten, List.mem_map, List.mem_filter, decide_eq_true_eq]
        constructor
        · rintro ⟨ts, ⟨r, ⟨hr, hrs⟩, rfl⟩, hx⟩
          exact ⟨r, hr, hrs, hx⟩
        · rintro ⟨r, hr, hrs, hx⟩
          exact ⟨r.tags, ⟨r, ⟨hr, hrs⟩, rfl⟩, hx⟩
      constructor
      · rintro (hy | ⟨x, hxF, hne, rfl⟩)
        · exact ⟨s, List.mem_cons_self s rest, rfl, hy⟩
        · obtain ⟨r, hr, hrs, hx⟩ := (hF x).mp hxF
          have hcl := hclean r (List.mem_cons_of_mem s hr) x hx
          rw [hcl.2]
          exact ⟨r, List.mem_cons_of_mem s hr, hrs, hx⟩
      · rintro ⟨r, hr, hrs, hy⟩
        rcases List.mem_cons.mp hr with rfl | hr'
        · exact Or.inl hy
        · have hcl := hclean r (List.mem_cons_of_mem s hr') y hy
          exact Or.inr ⟨y, (hF y).mpr ⟨r, hr', hrs, hy⟩, hcl.1, hcl.2.symm⟩
    · have hmne : ¬ m.name = s.name := mergeAll_filter_name_ne s rest m hm'
      have hclean2 : ∀ r ∈ (rest.filter fun r => ¬ r.name = s.name),
          ∀ t ∈ r.tags, t ≠ "" ∧ pyLower t = t := fun r hr =>
        hclean r (List.mem_cons_of_mem s (List.mem_of_mem_filter hr))
      rw [ih hclean2 m hm' y]
      constructor
      · rintro ⟨r, hr, hrs, hy⟩
        exact ⟨r, List.mem_cons_of_mem s (List.mem_of_mem_filter hr), hrs, hy⟩
      · rintro ⟨r, hr, hrs, hy⟩
        rcases List.mem_cons.mp hr with rfl | hr'
        · exact absurd hrs (fun h => hmne h.symm)
        · refine ⟨r, List.mem_filter.mpr ⟨hr', ?_⟩, hrs, hy⟩
          simp only [decide_eq_true_eq]
          exact fun h => hmne (hrs.symm.trans h)

theorem find?_filter_of_imp {α : Type} (p q : α → Bool) (l : List α)
    (h : ∀ a, p a = true → q a = true) : (l.filter q).find? p = l.find? p := by
  induction l with
  | nil => rfl
  | cons a as ih =>
    by_cases hp : p a = true
    · rw [List.filter_cons, if_pos (h a hp), List.find?_cons_of_pos _ hp,
        List.find?_cons_of_pos _ hp]
    · by_cases hq : q a = true
      · rw [List.filter_cons, if_pos hq, List.find?_cons_of_neg _ hp,
          List.find?_cons_of_neg _ hp, ih]
      · rw [List.filter_cons, if_neg hq, List.find?_cons_of_neg _ hp, ih]

theorem mergeAll_canonical (l : List Sat) :
    ∀ m ∈ mergeAll l, ∃ r, l.find? (fun q => q.name = m.name) = some r ∧
      ∃ extra, m.tags = r.tags ++ extra := by
  induction l using mergeAll.induct with
  | case1 => simp [mergeAll]
  | case2 s rest ih =>
    intro m hm
    rw [mergeAll] at hm
    rcases List.mem_cons.mp hm with rfl | hm'
    · refine ⟨s, ?_, addTags_extend _ _⟩
      apply List.find?_cons_of_pos
      simp
    · have hmne : ¬ m.name = s.name := mergeAll_filter_name_ne s rest m hm'
      obtain ⟨r, hfind, hext⟩ := ih m hm'
      refine ⟨r, ?_, hext⟩
      have hs : ¬ (fun q : Sat => decide (q.name = m.name)) s = true := by
        simp only [decide_eq_true_eq]
        exact fun h => hmne h.symm
      have himp : ∀ a : Sat, decide (a.name = m.name) = true →
          decide (¬ a.name = s.name) = true := by
        intro a
        simp only [decide_eq_true_eq, decide_eq_true_iff]
        intro h h2
        exact hmne (h.symm.trans h2)
      have hstep : List.find? (fun q : Sat => decide (q.name = m.name)) (s :: rest)
          = List.find? (fun q : Sat => decide (q.name = m.name)) rest :=
        List.find?_cons_of_neg _ hs
      rw [hstep,
        ← find?_filter_of_imp (fun q => q.name = m.name) (fun q => ¬ q.name = s.name)
          rest himp]
      exact hfind

theorem pyLower_debris : pyLower "debris" = "debris" := by decide

theorem generate_debris_tag_name (s : Sat) : (generate_debris_tag s).name = s.name := by
  unfold generate_debris_tag
  split <;> rfl

theorem generate_debris_tag_extend (s : Sat) :
    ∃ extra, (generate_debris_tag s).tags = s.tags ++ extra := by
  unfold generate_debris_tag
  split
  · exact addTag_extend s.tags "debris"
  · exact ⟨[], by simp⟩

theorem mem_tags_generate_debris_tag (s : Sat) (y : String) :
    y ∈ (generate_debris_tag s).tags ↔ y ∈ s.tags ∨
      (y = "debris" ∧ (strHasSub "deb" (pyLower s.name) = true ∨ in_tags s "deb" = true)) := by
  unfold generate_debris_tag
  split
  · rename_i hcond
    rw [show ({ s with tags := addTag s.tags "debris" } : Sat).tags
        = addTag s.tags "debris" from rfl]
    rw [mem_addTag, pyLower_debris]
    rw [Bool.or_eq_true] at hcond
    constructor
    · rintro (hy | ⟨-, rfl⟩)
      · exact Or.inl hy
      · exact Or.inr ⟨rfl, hcond⟩
    · rintro (hy | ⟨rfl, -⟩)
      · exact Or.inl hy
      · exact Or.inr ⟨by decide, rfl⟩
  · rename_i hcond
    rw [Bool.or_eq_true] at hcond
    push_neg at hcond
    constructor
    · exact fun hy => Or.inl hy
    · rintro (hy | ⟨rfl, hdisj⟩)
      · exact hy
      · exact absurd hdisj (by
          rintro (h | h)
          · exact hcond.1 h
          · exact hcond.2 h)

/-- C6 (amended): for every input list of records whose tags are nonempty,
already-lowercase strings, the constructed catalog (`Sats.__init__`, that is
`remove_duplicates` followed by `generate_debris_tag` on every kept record)
contains exactly one record per distinct input name (its name list has no
duplicates and holds exactly the input names), its length is the number of
distinct input names, each output record is the first-seen input record of
its name with its tag list only extended at the end, and a string is a tag
of an output record iff it is a tag of some input record with the same name
or it is the extra `"debris"` tag, which is present exactly when `"deb"`
occurs in the lowercased name or inside some tag of a same-name input
record.  (The unamended claim, that the tag set equals the union of the
input tag sets, fails because of the additional `"debris"` tag; see the
counterexample.) -/
theorem catalog_dedup_tag_union (l : List Sat)
    (hclean : ∀ r ∈ l, ∀ t ∈ r.tags, t ≠ "" ∧ pyLower t = t) :
    ((satsInit l).map Sat.name).Nodup ∧
    (∀ n, n ∈ (satsInit l).map Sat.name ↔ n ∈ l.map Sat.name) ∧
    (satsInit l).length = (l.map Sat.name).toFinset.card ∧
    (∀ m ∈ satsInit l, ∃ r, l.find? (fun q => q.name = m.name) = some r ∧
      ∃ extra, m.tags = r.tags ++ extra) ∧
    (∀ m ∈ satsInit l, ∀ y, y ∈ m.tags ↔
      ((∃ r ∈ l, r.name = m.name ∧ y ∈ r.tags) ∨
        (y = "debris" ∧ (strHasSub "deb" (pyLower m.name) = true ∨
          ∃ r ∈ l, r.name = m.name ∧ ∃ u ∈ r.tags, strHasSub "deb" u = true)))) := by
  have hnames : (satsInit l).map Sat.name = (mergeAll l).map Sat.name := by
    rw [satsInit, remove_duplicates_eq_mergeAll, List.map_map]
    exact List.map_congr_left fun m _ => generate_debris_tag_name m
  have hmemInit : ∀ m, m ∈ satsInit l ↔
      ∃ m₀ ∈ mergeAll l, generate_debris_tag m₀ = m := by
    intro m
    rw [satsInit, remove_duplicates_eq_mergeAll, List.mem_map]
  refine ⟨?_, ?_, ?_, ?_, ?_⟩
  · rw [hnames]
    exact nodup_map_name_mergeAll l
  · intro n
    rw [hnames, mem_map_name_mergeAll]
  · have h1 : (satsInit l).length = ((satsInit l).map Sat.name).length :=
      (List.length_map _ _).symm
    rw [h1, ← List.toFinset_card_of_nodup
      (by rw [hnames]; exact nodup_map_name_mergeAll l)]
    congr 1
    apply Finset.ext
    intro a
    simp only [List.mem_toFinset]
    rw [hnames, mem_map_name_mergeAll]
  · intro m hm
    obtain ⟨m₀, hm₀, rfl⟩ := (hmemInit m).mp hm
    obtain ⟨r, hfind, e1, he1⟩ := mergeAll_canonical l m₀ hm₀
    obtain ⟨e2, he2⟩ := generate_debris_tag_extend m₀
    refine ⟨r, ?_, e1 ++ e2, ?_⟩
    · rw [generate_debris_tag_name]
      exact hfind
    · rw [he2, he1, List.append_assoc]
  · intro m hm y
    obtain ⟨m₀, hm₀, rfl⟩ := (hmemInit m).mp hm
    rw [mem_tags_generate_debris_tag, generate_debris_tag_name]
    have hM3 := mem_tags_mergeAll l hclean m₀ hm₀
    have hintags : in_tags m₀ "deb" = true ↔
        ∃ r ∈ l, r.name = m₀.name ∧ ∃ u ∈ r.tags, strHasSub "deb" u = true := by
      rw [in_tags, List.any_eq_true]
      constructor
      · rintro ⟨u, hu, hsub⟩
        obtain ⟨r, hr, hrn, hur⟩ := (hM3 u).mp hu
        exact ⟨r, hr, hrn, u, hur, hsub⟩
      · rintro ⟨r, hr, hrn, u, hur, hsub⟩
        exact ⟨u, (hM3 u).mpr ⟨r, hr, hrn, hur⟩, hsub⟩
    rw [hM3 y, hintags]

/-- C6 counterexample: a catalog built from the single record named
`"DEB 1"` with tag list `["rocket"]` has tag set `{"rocket", "debris"}`,
while the union of the input tag sets for that name is `{"rocket"}`: the
merged record's tag set does not equal the union of the input tag sets. -/
theorem catalog_tag_union_counterexample :
    satsInit [⟨"DEB 1", ["rocket"]⟩] = [⟨"DEB 1", ["rocket", "debris"]⟩] ∧
    ("debris" : String) ∉ (["rocket"] : List String) := by
  constructor
  · rfl
  · decide

/-- C6 witness: the amended claim applied to a concrete catalog with a
duplicated name. -/
theorem catalog_dedup_tag_union_witness :
    (∀ r ∈ ([⟨"alpha", ["x"]⟩, ⟨"alpha", ["y"]⟩] : List Sat),
      ∀ t ∈ r.tags, t ≠ "" ∧ pyLower t = t) ∧
    (((satsInit [⟨"alpha", ["x"]⟩, ⟨"alpha", ["y"]⟩]).map Sat.name).Nodup ∧
    (∀ n, n ∈ (satsInit [⟨"alpha", ["x"]⟩, ⟨"alpha", ["y"]⟩]).map Sat.name ↔
      n ∈ ([⟨"alpha", ["x"]⟩, ⟨"alpha", ["y"]⟩] : List Sat).map Sat.name) ∧
    (satsInit [⟨"alpha", ["x"]⟩, ⟨"alpha", ["y"]⟩]).length =
      (([⟨"alpha", ["x"]⟩, ⟨"alpha", ["y"]⟩] : List Sat).map Sat.name).toFinset.card ∧
    (∀ m ∈ satsInit [⟨"alpha", ["x"]⟩, ⟨"alpha", ["y"]⟩], ∃ r,
      ([⟨"alpha", ["x"]⟩, ⟨"alpha", ["y"]⟩] : List Sat).find?
        (fun q => q.name = m.name) = some r ∧
      ∃ extra, m.tags = r.tags ++ extra) ∧
    (∀ m ∈ satsInit [⟨"alpha", ["x"]⟩, ⟨"alpha", ["y"]⟩], ∀ y, y ∈ m.tags ↔
      ((∃ r ∈ ([⟨"alpha", ["x"]⟩, ⟨"alpha", ["y"]⟩] : List Sat),
          r.name = m.name ∧ y ∈ r.tags) ∨
        (y = "debris" ∧ (strHasSub "deb" (pyLower m.name) = true ∨
          ∃ r ∈ ([⟨"alpha", ["x"]⟩, ⟨"alpha", ["y"]⟩] : List Sat),
            r.name = m.name ∧ ∃ u ∈ r.tags, strHasSub "deb" u = true))))) :=
  ⟨by decide, catalog_dedup_tag_union _ (by decide)⟩

end SatToolkit

namespace SatToolkit

/-! ### Theorems for the compositing rules -/

/-- C9: applying a derived-attribute rule to a placed record that lacks the
attribute raises immediately: when the altitude (respectively distance)
carries the `-1` sentinel, `AltitudeModifier.handle` (respectively
`DistanceModifier.handle`) raises an exception instead of returning a
colour. -/
theorem missing_attribute_rule_raises (am : AltitudeModifier) (dm : DistanceModifier)
    (sat : SatPosition ℚ) (rgb : RGB) :
    (sat.altitude = -1 → ∃ msg, am.handle sat rgb = Except.error msg) ∧
    (sat.distance = -1 → ∃ msg, dm.handle sat rgb = Except.error msg) := by
  constructor
  · intro h
    exact ⟨_, by rw [AltitudeModifier.handle, if_pos h]⟩
  · intro h
    exact ⟨_, by rw [DistanceModifier.handle, if_pos h]⟩

/-- C9 witness: both rules raise on a concrete sentinel-valued record. -/
theorem missing_attribute_rule_raises_witness :
    ((⟨0, 8, 8, -1, -1⟩ : SatPosition ℚ).altitude = -1 ∧
      ∃ msg, AltitudeModifier.handle ⟨0, 100, ⟨1, 2, 3⟩⟩ ⟨0, 8, 8, -1, -1⟩ ⟨0, 0, 0⟩
        = Except.error msg) ∧
    ((⟨0, 8, 8, -1, -1⟩ : SatPosition ℚ).distance = -1 ∧
      ∃ msg, DistanceModifier.handle ⟨0, 100, ⟨1, 2, 3⟩⟩ ⟨0, 8, 8, -1, -1⟩ ⟨0, 0, 0⟩
        = Except.error msg) :=
  ⟨⟨rfl, (missing_attribute_rule_raises ⟨0, 100, ⟨1, 2, 3⟩⟩ ⟨0, 100, ⟨1, 2, 3⟩⟩
      ⟨0, 8, 8, -1, -1⟩ ⟨0, 0, 0⟩).1 rfl⟩,
    ⟨rfl, (missing_attribute_rule_raises ⟨0, 100, ⟨1, 2, 3⟩⟩ ⟨0, 100, ⟨1, 2, 3⟩⟩
      ⟨0, 8, 8, -1, -1⟩ ⟨0, 0, 0⟩).2 rfl⟩⟩

/-! ### Theorems for RGB object identity -/

/-- C10: `RGB.__add__` is an in-place mutation of its left operand: `a + b`
returns the reference `a` itself, with `a`'s channels replaced by the
clamped sums; a distinct right operand `b` is left unchanged; and
consequently `AlwaysPixelModifier.handle`, applied to the object returned
by `ImageFrame.get_pixel`, mutates the pixel object inside the frame's
buffer rather than producing a fresh value. -/
theorem rgb_add_mutates_left_operand (h : RGBHeap) (a b : RGBRef)
    (f : ImageFrameRef) (x y : ℕ) :
    (rgbAddRef h a b).2 = a ∧
    (a ≠ b → heapGet (rgbAddRef h a b).1 b = heapGet h b) ∧
    (a < h.length → heapGet (rgbAddRef h a b).1 a = RGB.add (heapGet h a) (heapGet h b)) ∧
    (f.get_pixel x y = a → a < h.length →
      heapGet (alwaysHandleRef h b (f.get_pixel x y)).1 (f.get_pixel x y)
        = RGB.add (heapGet h a) (heapGet h b)) := by
  refine ⟨rfl, ?_, ?_, ?_⟩
  · intro hne
    simp [rgbAddRef, heapGet, heapSet, List.getElem?_set_ne hne]
  · intro hlt
    simp [rgbAddRef, heapGet, heapSet, List.getElem?_set_self, hlt]
  · intro hpx hlt
    rw [hpx]
    simp [alwaysHandleRef, rgbAddRef, heapGet, heapSet, List.getElem?_set_self, hlt]

/-- C10 witness: the in-place mutation observed on a concrete two-object
heap and a one-pixel frame. -/
theorem rgb_add_mutates_left_operand_witness :
    (rgbAddRef [⟨1, 2, 3⟩, ⟨10, 20, 30⟩] 0 1).2 = 0 ∧
    heapGet (rgbAddRef [⟨1, 2, 3⟩, ⟨10, 20, 30⟩] 0 1).1 1
      = heapGet [⟨1, 2, 3⟩, ⟨10, 20, 30⟩] 1 ∧
    heapGet (rgbAddRef [⟨1, 2, 3⟩, ⟨10, 20, 30⟩] 0 1).1 0
      = RGB.add (heapGet [⟨1, 2, 3⟩, ⟨10, 20, 30⟩] 0) (heapGet [⟨1, 2, 3⟩, ⟨10, 20, 30⟩] 1) ∧
    heapGet (alwaysHandleRef [⟨1, 2, 3⟩, ⟨10, 20, 30⟩] 1
        (ImageFrameRef.get_pixel ⟨1, 1, [0]⟩ 0 0)).1
        (ImageFrameRef.get_pixel ⟨1, 1, [0]⟩ 0 0)
      = RGB.add (heapGet [⟨1, 2, 3⟩, ⟨10, 20, 30⟩] 0) (heapGet [⟨1, 2, 3⟩, ⟨10, 20, 30⟩] 1) := by
  obtain ⟨h1, h2, h3, h4⟩ :=
    rgb_add_mutates_left_operand [⟨1, 2, 3⟩, ⟨10, 20, 30⟩] 0 1 ⟨1, 1, [0]⟩ 0 0
  exact ⟨h1, h2 (by decide), h3 (by decide), h4 (by decide) (by decide)⟩

end SatToolkit

namespace SatToolkit

/-! ### Theorems for the projection models -/

theorem pyInt_eq_floor {x : ℝ} (h : 0 ≤ x) : pyInt x = ⌊x⌋ := if_pos h

theorem rad_180 : rad 180 = Real.pi := by
  rw [rad]
  field_simp

theorem pyInt_eight : pyInt 8 = 8 := by
  rw [pyInt, if_pos (by norm_num : (0:ℝ) ≤ 8)]
  norm_num

theorem topo_placeSat_bounds {w h : ℕ} {xw yw : ℝ} {s : ℕ}
    {res : Option ℝ × Option ℝ × Option ℝ} {p : SatPosition ℝ}
    (hp : TopocentricProjectionModel.placeSat w h xw yw s res = some p) :
    0 ≤ p.x ∧ p.x < w ∧ 0 ≤ p.y ∧ p.y < h := by
  rcases res with ⟨oa, ob, oc⟩
  cases oa with
  | none => simp [TopocentricProjectionModel.placeSat] at hp
  | some al =>
    cases ob with
    | none => simp [TopocentricProjectionModel.placeSat] at hp
    | some az =>
      cases oc with
      | none => simp [TopocentricProjectionModel.placeSat] at hp
      | some ds =>
        simp only [TopocentricProjectionModel.placeSat] at hp
        split at hp
        · exact absurd hp (by simp)
        · rename_i hx
          split at hp
          · exact absurd hp (by simp)
          · rename_i hy
            push_neg at hx hy
            obtain rfl := (Option.some.injEq _ _).mp hp
            exact ⟨hx.1, hx.2, hy.1, hy.2⟩

theorem geo_placeSat_bounds {w h : ℕ} {xw yw olat olon : ℝ}
    {s : ℕ} {res : Option ℝ × Option ℝ × Option ℝ} {p : SatPosition ℝ}
    (hp : GeocentricProjectionModel.placeSat w h xw yw olat olon s res = some p) :
    0 ≤ p.x ∧ p.x < w ∧ 0 ≤ p.y ∧ p.y < h := by
  rcases res with ⟨oa, ob, oc⟩
  cases oa with
  | none => simp [GeocentricProjectionModel.placeSat] at hp
  | some la =>
    cases ob with
    | none => simp [GeocentricProjectionModel.placeSat] at hp
    | some lo =>
      cases oc with
      | none => simp [GeocentricProjectionModel.placeSat] at hp
      | some al =>
        simp only [GeocentricProjectionModel.placeSat] at hp
        split at hp
        · exact absurd hp (by simp)
        · rename_i hx
          split at hp
          · exact absurd hp (by simp)
          · rename_i hy
            push_neg at hx hy
            obtain rfl := (Option.some.injEq _ _).mp hp
            exact ⟨hx.1, hx.2, hy.1, hy.2⟩

end SatToolkit

namespace SatToolkit

/-- C3: every placed record yielded by either projection variant has integer
cell coordinates with `0 ≤ x < width` and `0 ≤ y < height`; the bounds
checks drop any out-of-range index before the record is placed. -/
theorem placements_within_grid (w h : ℕ) (xw yw olat olon : ℝ) (sats : List ℕ)
    (ft fg : ℕ → Option ℝ × Option ℝ × Option ℝ) :
    (∀ p ∈ TopocentricProjectionModel.generate_sat_frame w h xw yw sats ft,
      0 ≤ p.x ∧ p.x < w ∧ 0 ≤ p.y ∧ p.y < h) ∧
    (∀ p ∈ GeocentricProjectionModel.computed_sats w h xw yw olat olon sats fg,
      0 ≤ p.x ∧ p.x < w ∧ 0 ≤ p.y ∧ p.y < h) := by
  constructor
  · intro p hp
    rw [TopocentricProjectionModel.generate_sat_frame, List.mem_filterMap] at hp
    obtain ⟨s, -, hs⟩ := hp
    exact topo_placeSat_bounds hs
  · intro p hp
    rw [GeocentricProjectionModel.computed_sats, List.mem_filterMap] at hp
    obtain ⟨s, -, hs⟩ := hp
    exact geo_placeSat_bounds hs

theorem topo_place_zenith :
    TopocentricProjectionModel.placeSat 16 16 1 1 0 (some 90, some 0, some 500)
      = some ⟨0, 8, 8, 500, 500⟩ := by
  simp only [TopocentricProjectionModel.placeSat]
  rw [show ((90:ℝ) - 90) = 0 by norm_num]
  simp only [zero_mul]
  rw [show (0:ℝ) / 1 + (16:ℕ) / 2 = 8 by norm_num, pyInt_eight]
  rw [if_neg (by norm_num)]
  rw [if_neg (by norm_num)]
  rw [show ((90:ℝ) + 90) = 180 by norm_num, rad_180, Real.cos_pi]
  rw [show (500:ℝ)^2 + EARTH_RADIUS^2 - 2*500*EARTH_RADIUS*(-1) = 6871^2 by
    rw [EARTH_RADIUS]; norm_num]
  rw [Real.sqrt_sq (by norm_num : (0:ℝ) ≤ 6871)]
  rw [show (6871:ℝ) - EARTH_RADIUS = 500 by rw [EARTH_RADIUS]; norm_num]

theorem geo_place_origin :
    GeocentricProjectionModel.placeSat 16 16 (1/2) (1/2) 0 0 0 (some 0, some 0, some 550)
      = some ⟨0, 8, 8, 550, -1⟩ := by
  simp only [GeocentricProjectionModel.placeSat]
  rw [show ((0:ℝ) - 0) / (1/2) + (16:ℕ) / 2 = 8 by norm_num, pyInt_eight]
  rw [if_neg (by norm_num)]
  rw [if_neg (by norm_num)]
  norm_num

theorem topo_frame_zenith :
    TopocentricProjectionModel.generate_sat_frame 16 16 1 1 [0]
      (fun _ => (some 90, some 0, some 500)) = [⟨0, 8, 8, 500, 500⟩] := by
  rw [TopocentricProjectionModel.generate_sat_frame]
  simp only [List.filterMap_cons, List.filterMap_nil, topo_place_zenith]

theorem geo_computed_origin :
    GeocentricProjectionModel.computed_sats 16 16 (1/2) (1/2) 0 0 [0]
      (fun _ => (some 0, some 0, some 550)) = [⟨0, 8, 8, 550, -1⟩] := by
  rw [GeocentricProjectionModel.computed_sats]
  simp only [List.filterMap_cons, List.filterMap_nil, geo_place_origin]

/-- C3 witness: concrete placements produced by each variant, with their
bounds obtained from the theorem. -/
theorem placements_within_grid_witness :
    ((⟨0, 8, 8, 500, 500⟩ : SatPosition ℝ) ∈
      TopocentricProjectionModel.generate_sat_frame 16 16 1 1 [0]
        (fun _ => (some 90, some 0, some 500)) ∧
      (0 ≤ (⟨0, 8, 8, 500, 500⟩ : SatPosition ℝ).x ∧
        (⟨0, 8, 8, 500, 500⟩ : SatPosition ℝ).x < 16 ∧
        0 ≤ (⟨0, 8, 8, 500, 500⟩ : SatPosition ℝ).y ∧
        (⟨0, 8, 8, 500, 500⟩ : SatPosition ℝ).y < 16)) ∧
    ((⟨0, 8, 8, 550, -1⟩ : SatPosition ℝ) ∈
      GeocentricProjectionModel.computed_sats 16 16 (1/2) (1/2) 0 0 [0]
        (fun _ => (some 0, some 0, some 550)) ∧
      (0 ≤ (⟨0, 8, 8, 550, -1⟩ : SatPosition ℝ).x ∧
        (⟨0, 8, 8, 550, -1⟩ : SatPosition ℝ).x < 16 ∧
        0 ≤ (⟨0, 8, 8, 550, -1⟩ : SatPosition ℝ).y ∧
        (⟨0, 8, 8, 550, -1⟩ : SatPosition ℝ).y < 16)) := by
  have hmem1 : (⟨0, 8, 8, 500, 500⟩ : SatPosition ℝ) ∈
      TopocentricProjectionModel.generate_sat_frame 16 16 1 1 [0]
        (fun _ => (some 90, some 0, some 500)) := by
    rw [topo_frame_zenith]
    exact List.mem_singleton.mpr rfl
  have hmem2 : (⟨0, 8, 8, 550, -1⟩ : SatPosition ℝ) ∈
      GeocentricProjectionModel.computed_sats 16 16 (1/2) (1/2) 0 0 [0]
        (fun _ => (some 0, some 0, some 550)) := by
    rw [geo_computed_origin]
    exact List.mem_singleton.mpr rfl
  exact ⟨⟨hmem1, (placements_within_grid 16 16 1 1 0 0 [0]
      (fun _ => (some 90, some 0, some 500)) (fun _ => (some 0, some 0, some 550))).1
      _ hmem1⟩,
    ⟨hmem2, (placements_within_grid 16 16 (1/2) (1/2) 0 0 [0]
      (fun _ => (some 90, some 0, some 500)) (fun _ => (some 0, some 0, some 550))).2
      _ hmem2⟩⟩

end SatToolkit

namespace SatToolkit

theorem topo_placeSat_nan {w h : ℕ} {xw yw : ℝ} {s : ℕ}
    {res : Option ℝ × Option ℝ × Option ℝ}
    (hres : res.1 = none ∨ res.2.1 = none ∨ res.2.2 = none) :
    TopocentricProjectionModel.placeSat w h xw yw s res = none := by
  rcases res with ⟨oa, ob, oc⟩
  cases oa <;> cases ob <;> cases oc <;>
    simp_all [TopocentricProjectionModel.placeSat]

theorem geo_placeSat_nan {w h : ℕ} {xw yw olat olon : ℝ} {s : ℕ}
    {res : Option ℝ × Option ℝ × Option ℝ}
    (hres : res.1 = none ∨ res.2.1 = none ∨ res.2.2 = none) :
    GeocentricProjectionModel.placeSat w h xw yw olat olon s res = none := by
  rcases res with ⟨oa, ob, oc⟩
  cases oa <;> cases ob <;> cases oc <;>
    simp_all [GeocentricProjectionModel.placeSat]

/-- C8: a record whose propagation yields NaN (a `none` component) in any of
the three components is absent from the output of either variant, and the
records before and after it are still processed exactly as without it; the
skip is a plain `continue`, no exception path exists. -/
theorem nan_record_skipped (w h : ℕ) (xw yw olat olon : ℝ)
    (pre post : List ℕ) (bad : ℕ)
    (ft fg : ℕ → Option ℝ × Option ℝ × Option ℝ)
    (hft : (ft bad).1 = none ∨ (ft bad).2.1 = none ∨ (ft bad).2.2 = none)
    (hfg : (fg bad).1 = none ∨ (fg bad).2.1 = none ∨ (fg bad).2.2 = none) :
    TopocentricProjectionModel.generate_sat_frame w h xw yw (pre ++ bad :: post) ft
      = TopocentricProjectionModel.generate_sat_frame w h xw yw pre ft ++
        TopocentricProjectionModel.generate_sat_frame w h xw yw post ft ∧
    GeocentricProjectionModel.computed_sats w h xw yw olat olon (pre ++ bad :: post) fg
      = GeocentricProjectionModel.computed_sats w h xw yw olat olon pre fg ++
        GeocentricProjectionModel.computed_sats w h xw yw olat olon post fg := by
  constructor
  · rw [TopocentricProjectionModel.generate_sat_frame, List.filterMap_append,
      List.filterMap_cons]
    simp only [topo_placeSat_nan hft]
    rfl
  · rw [GeocentricProjectionModel.computed_sats, List.filterMap_append,
      List.filterMap_cons]
    simp only [geo_placeSat_nan hfg]
    rfl

/-- C8 witness: a record with NaN elevation (respectively NaN latitude)
between two valid records vanishes from the output while the others are
still placed. -/
theorem nan_record_skipped_witness :
    (((fun n : ℕ => if n = 1 then ((none : Option ℝ), (some 0 : Option ℝ),
        (some 0 : Option ℝ)) else (some 90, some 0, some 500)) 1).1 = none ∨
      ((fun n : ℕ => if n = 1 then ((none : Option ℝ), (some 0 : Option ℝ),
        (some 0 : Option ℝ)) else (some 90, some 0, some 500)) 1).2.1 = none ∨
      ((fun n : ℕ => if n = 1 then ((none : Option ℝ), (some 0 : Option ℝ),
        (some 0 : Option ℝ)) else (some 90, some 0, some 500)) 1).2.2 = none) ∧
    TopocentricProjectionModel.generate_sat_frame 16 16 1 1 ([0] ++ 1 :: [2])
      (fun n : ℕ => if n = 1 then ((none : Option ℝ), (some 0 : Option ℝ),
        (some 0 : Option ℝ)) else (some 90, some 0, some 500))
      = TopocentricProjectionModel.generate_sat_frame 16 16 1 1 [0]
        (fun n : ℕ => if n = 1 then ((none : Option ℝ), (some 0 : Option ℝ),
          (some 0 : Option ℝ)) else (some 90, some 0, some 500)) ++
        TopocentricProjectionModel.generate_sat_frame 16 16 1 1 [2]
        (fun n : ℕ => if n = 1 then ((none : Option ℝ), (some 0 : Option ℝ),
          (some 0 : Option ℝ)) else (some 90, some 0, some 500)) := by
  have hft : ((fun n : ℕ => if n = 1 then ((none : Option ℝ), (some 0 : Option ℝ),
      (some 0 : Option ℝ)) else (some 90, some 0, some 500)) 1).1 = none := by
    norm_num
  refine ⟨Or.inl hft, ?_⟩
  exact (nan_record_skipped 16 16 1 1 0 0 [0] [2] 1
    (fun n : ℕ => if n = 1 then ((none : Option ℝ), (some 0 : Option ℝ),
      (some 0 : Option ℝ)) else (some 90, some 0, some 500))
    (fun n : ℕ => if n = 1 then ((none : Option ℝ), (some 0 : Option ℝ),
      (some 0 : Option ℝ)) else (some 90, some 0, some 500))
    (Or.inl hft) (Or.inl hft)).1

end SatToolkit

namespace SatToolkit

/-- C4 (amended): the topocentric cell indices are computed with Python
`int` truncation toward zero, `x = trunc(east / cellWidth + width/2)` and
`y = trunc(north / cellHeight + height/2)`; this agrees with the spec's
mathematical floor whenever both arguments are nonnegative, and
out-of-range indices are dropped.  (For a negative fractional argument
truncation and floor differ; see the counterexample.) -/
theorem topo_cell_indices_trunc (w h : ℕ) (xw yw : ℝ) (s : ℕ) (el az rng : ℝ)
    (hx : 0 ≤ (90 - el) * Real.cos (rad (az + 90)) / xw + (w : ℝ) / 2)
    (hy : 0 ≤ (90 - el) * Real.sin (rad (az + 90)) / yw + (h : ℝ) / 2) :
    TopocentricProjectionModel.placeSat w h xw yw s (some el, some az, some rng)
      = TopocentricProjectionModel.specFloorPlaceSat w h xw yw s
        (some el, some az, some rng) := by
  simp only [TopocentricProjectionModel.placeSat,
    TopocentricProjectionModel.specFloorPlaceSat]
  rw [pyInt_eq_floor hx, pyInt_eq_floor hy]

/-- C4 counterexample: with elevation 81.5, azimuth 90 and range 500 on a
16x16 grid with 1-degree cells, the tangent-plane argument
`east/cellWidth + width/2` equals `-0.5`; the code truncates toward zero
and places the record at cell `(0, 8)`, while the spec's floor mapping
would compute `x = -1` and drop the record. -/
theorem topo_trunc_not_floor_counterexample :
    Option.map (fun p => (p.x, p.y))
      (TopocentricProjectionModel.placeSat 16 16 1 1 0 (some 81.5, some 90, some 500))
      = some (0, 8) ∧
    TopocentricProjectionModel.specFloorPlaceSat 16 16 1 1 0
      (some 81.5, some 90, some 500) = none := by
  have hrad : rad (90 + 90) = Real.pi := by
    rw [show ((90:ℝ) + 90) = 180 by norm_num, rad_180]
  have hxarg : ((90:ℝ) - 81.5) * Real.cos (rad (90 + 90)) / 1 + (16:ℕ) / 2
      = -(1/2) := by
    rw [hrad, Real.cos_pi]
    norm_num
  have hyarg : ((90:ℝ) - 81.5) * Real.sin (rad (90 + 90)) / 1 + (16:ℕ) / 2 = 8 := by
    rw [hrad, Real.sin_pi]
    norm_num
  constructor
  · simp only [TopocentricProjectionModel.placeSat]
    rw [hxarg, hyarg, pyInt_eight]
    rw [show pyInt (-(1/2)) = 0 by
      rw [pyInt, if_neg (by norm_num)]
      norm_num [Int.ceil_eq_iff]]
    rw [if_neg (by norm_num), if_neg (by norm_num)]
    rfl
  · simp only [TopocentricProjectionModel.specFloorPlaceSat]
    rw [hxarg]
    rw [show ⌊(-(1/2) : ℝ)⌋ = -1 by norm_num [Int.floor_eq_iff]]
    rw [if_pos (by norm_num)]

/-- C4 witness: at the zenith scenario both mappings agree. -/
theorem topo_cell_indices_trunc_witness :
    (0 ≤ ((90:ℝ) - 90) * Real.cos (rad (0 + 90)) / 1 + (16:ℕ) / 2) ∧
    (0 ≤ ((90:ℝ) - 90) * Real.sin (rad (0 + 90)) / 1 + (16:ℕ) / 2) ∧
    TopocentricProjectionModel.placeSat 16 16 1 1 0 (some 90, some 0, some 500)
      = TopocentricProjectionModel.specFloorPlaceSat 16 16 1 1 0
        (some 90, some 0, some 500) := by
  have hx : (0:ℝ) ≤ ((90:ℝ) - 90) * Real.cos (rad (0 + 90)) / 1 + (16:ℕ) / 2 := by
    rw [show ((90:ℝ) - 90) = 0 by norm_num]
    simp
    positivity
  have hy : (0:ℝ) ≤ ((90:ℝ) - 90) * Real.sin (rad (0 + 90)) / 1 + (16:ℕ) / 2 := by
    rw [show ((90:ℝ) - 90) = 0 by norm_num]
    simp
    positivity
  exact ⟨hx, hy, topo_cell_indices_trunc 16 16 1 1 0 90 0 500 hx hy⟩

end SatToolkit

namespace SatToolkit

/-- C5 (amended): the topocentric scenario — single record at elevation 90,
azimuth 0, range 500 km, 16x16 grid, 1-degree cells — yields exactly one
placed record, at cell (8, 8), whose derived ground altitude equals
`sqrt(500^2 + 6371^2 - 2*500*6371*cos(180 deg)) - 6371 = 500` (the spec's
scenario writes an extra leading `500 -` around this value, which would be
0; the code stores the law-of-cosines value itself). -/
theorem topo_zenith_scenario :
    TopocentricProjectionModel.generate_sat_frame 16 16 1 1 [0]
      (fun _ => (some 90, some 0, some 500)) = [⟨0, 8, 8, 500, 500⟩] ∧
    (500:ℝ) = Real.sqrt ((500:ℝ)^2 + 6371^2 - 2*500*6371*Real.cos (rad 180)) - 6371 := by
  have hs : Real.sqrt ((500:ℝ)^2 + 6371^2 - 2*500*6371*Real.cos (rad 180)) = 6871 := by
    rw [rad_180, Real.cos_pi]
    rw [show (500:ℝ)^2 + 6371^2 - 2*500*6371*(-1) = 6871^2 by norm_num]
    exact Real.sqrt_sq (by norm_num)
  refine ⟨topo_frame_zenith, ?_⟩
  rw [hs]
  norm_num

/-- C5 counterexample: the code's derived ground altitude at the scenario is
500 km, while the claim's expression `500 - (sqrt(500^2 + 6371^2 -
2*500*6371*cos(180 deg)) - 6371)` evaluates to 0, and 500 is not close to
0. -/
theorem topo_zenith_altitude_counterexample :
    (TopocentricProjectionModel.generate_sat_frame 16 16 1 1 [0]
      (fun _ => (some 90, some 0, some 500))).map (fun p => p.altitude) = [(500:ℝ)] ∧
    (500:ℝ) - (Real.sqrt ((500:ℝ)^2 + 6371^2 - 2*500*6371*Real.cos (rad 180)) - 6371)
      = 0 ∧
    (500:ℝ) ≠ 0 := by
  have hs : Real.sqrt ((500:ℝ)^2 + 6371^2 - 2*500*6371*Real.cos (rad 180)) = 6871 := by
    rw [rad_180, Real.cos_pi]
    rw [show (500:ℝ)^2 + 6371^2 - 2*500*6371*(-1) = 6871^2 by norm_num]
    exact Real.sqrt_sq (by norm_num)
  refine ⟨?_, by rw [hs]; norm_num, by norm_num⟩
  rw [topo_frame_zenith]
  rfl

theorem foldl_addSat_default (ps : List (SatPosition ℝ)) :
    ∀ cell : DefaultSatList,
      ps.foldl (fun st p => addSat st.1 st.2 p) (cell, SatListRef.defaultList)
        = (⟨cell.content ++ ps⟩, SatListRef.defaultList) := by
  induction ps with
  | nil =>
    intro cell
    cases cell
    simp
  | cons p ps ih =>
    intro cell
    rw [List.foldl_cons]
    rw [show addSat cell SatListRef.defaultList p
        = (⟨cell.content ++ [p]⟩, SatListRef.defaultList) from rfl]
    rw [ih ⟨cell.content ++ [p]⟩]
    simp

theorem GeocentricProjectionModel.generate_state (cell : DefaultSatList) (w h : ℕ)
    (xw yw olat olon : ℝ) (sats : List ℕ)
    (f : ℕ → Option ℝ × Option ℝ × Option ℝ) :
    GeocentricProjectionModel.generate_sat_frame cell w h xw yw olat olon sats f
      = (⟨cell.content ++
            GeocentricProjectionModel.computed_sats w h xw yw olat olon sats f⟩,
        SatListRef.defaultList) := by
  rw [GeocentricProjectionModel.generate_sat_frame, foldl_addSat_default]

/-- C2: the placed records are not recomputed from scratch into a fresh
list: both geocentric frames alias the single shared default-argument list
of `SatFrame.__init__`, so after two successive calls placing one record
each, the second frame's list holds both placements (not only the ones
computed during the second call, which are `[p]`), and the first frame's
list — the same object — has changed too. -/
theorem geo_frames_share_default_list :
    GeocentricProjectionModel.generate_sat_frame ⟨[]⟩ 16 16 (1/2) (1/2) 0 0 [0]
      (fun _ => (some 0, some 0, some 550))
      = (⟨[⟨0, 8, 8, 550, -1⟩]⟩, SatListRef.defaultList) ∧
    GeocentricProjectionModel.generate_sat_frame ⟨[⟨0, 8, 8, 550, -1⟩]⟩ 16 16
      (1/2) (1/2) 0 0 [0] (fun _ => (some 0, some 0, some 550))
      = (⟨[⟨0, 8, 8, 550, -1⟩, ⟨0, 8, 8, 550, -1⟩]⟩, SatListRef.defaultList) ∧
    GeocentricProjectionModel.computed_sats 16 16 (1/2) (1/2) 0 0 [0]
      (fun _ => (some 0, some 0, some 550)) = [⟨0, 8, 8, 550, -1⟩] ∧
    readSats ⟨[⟨0, 8, 8, 550, -1⟩, ⟨0, 8, 8, 550, -1⟩]⟩ SatListRef.defaultList
      = [⟨0, 8, 8, 550, -1⟩, ⟨0, 8, 8, 550, -1⟩] := by
  refine ⟨?_, ?_, geo_computed_origin, rfl⟩
  · rw [GeocentricProjectionModel.generate_state, geo_computed_origin]
    simp
  · rw [GeocentricProjectionModel.generate_state, geo_computed_origin]
    simp

end SatToolkit

namespace SatToolkit

theorem deg_rad (x : ℝ) : deg (rad x) = x := by
  rw [deg, rad]
  field_simp

theorem rad_deg (x : ℝ) : rad (deg x) = x := by
  rw [deg, rad]
  field_simp

theorem FoV_roundtrip_aux (FoV alt : ℝ) (h1 : 0 < FoV) (h2 : FoV < 180)
    (h3 : 0 < alt) :
    0 < GeocentricProjectionModel.FoV_relative_to_origin FoV alt ∧
    GeocentricProjectionModel.FoV_relative_to_observer
      (GeocentricProjectionModel.FoV_relative_to_origin FoV alt) alt = 360 - FoV := by
  have hpi := Real.pi_pos
  have hRpos : (0:ℝ) < EARTH_RADIUS := by simp only [EARTH_RADIUS]; norm_num
  have hbpos : (0:ℝ) < EARTH_RADIUS + alt := by linarith
  have hRb : EARTH_RADIUS < EARTH_RADIUS + alt := by linarith
  set θ := rad (0.5 * FoV) with hθ
  have hθpos : 0 < θ := by
    rw [hθ, rad]
    positivity
  have hθlt : θ < Real.pi / 2 := by
    rw [hθ, rad]
    nlinarith
  have hsinθpos : 0 < Real.sin θ := Real.sin_pos_of_pos_of_lt_pi hθpos (by linarith)
  have hsinθle : Real.sin θ ≤ 1 := Real.sin_le_one θ
  have hcosθnn : 0 ≤ Real.cos θ :=
    Real.cos_nonneg_of_neg_pi_div_two_le_of_le (by linarith) (le_of_lt hθlt)
  set k := EARTH_RADIUS / (EARTH_RADIUS + alt) * Real.sin θ with hk
  have hRbdiv : EARTH_RADIUS / (EARTH_RADIUS + alt) < 1 := (div_lt_one hbpos).mpr hRb
  have hkpos : 0 < k := by
    rw [hk]
    positivity
  have hklt : k < 1 := by
    rw [hk]
    calc EARTH_RADIUS / (EARTH_RADIUS + alt) * Real.sin θ
        < 1 * Real.sin θ := by
          exact mul_lt_mul_of_pos_right hRbdiv hsinθpos
      _ ≤ 1 := by rw [one_mul]; exact hsinθle
  set γ := Real.arcsin k with hγ
  have hγpos : 0 < γ := Real.arcsin_pos.mpr hkpos
  have hγlt : γ < Real.pi / 2 := Real.arcsin_lt_pi_div_two.mpr hklt
  have hsinγ : Real.sin γ = k := Real.sin_arcsin (by linarith) (le_of_lt hklt)
  have hcosγnn : 0 ≤ Real.cos γ :=
    Real.cos_nonneg_of_neg_pi_div_two_le_of_le (by linarith) (le_of_lt hγlt)
  have hγltθ : γ < θ := by
    have hklt2 : k < Real.sin θ := by
      rw [hk]
      calc EARTH_RADIUS / (EARTH_RADIUS + alt) * Real.sin θ
          < 1 * Real.sin θ := mul_lt_mul_of_pos_right hRbdiv hsinθpos
        _ = Real.sin θ := one_mul _
    have h4 : γ < Real.arcsin (Real.sin θ) := by
      apply Real.strictMonoOn_arcsin
      · exact Set.mem_Icc.mpr ⟨by linarith, le_of_lt hklt⟩
      · exact Set.mem_Icc.mpr ⟨Real.neg_one_le_sin θ, hsinθle⟩
      · exact hklt2
    rwa [Real.arcsin_sin (by linarith) (le_of_lt hθlt)] at h4
  have hbsinγ : (EARTH_RADIUS + alt) * Real.sin γ = EARTH_RADIUS * Real.sin θ := by
    rw [hsinγ, hk]
    field_simp
  set α := θ - γ with hα
  have hαpos : 0 < α := by rw [hα]; linarith
  have hαlt : α < Real.pi / 2 := by rw [hα]; linarith
  have hdegθ : deg θ = 0.5 * FoV := by rw [hθ, deg_rad]
  have horigin : GeocentricProjectionModel.FoV_relative_to_origin FoV alt
      = 2 * deg α := by
    simp only [GeocentricProjectionModel.FoV_relative_to_origin]
    have hradB : rad (180 - 0.5 * FoV) = Real.pi - θ := by
      rw [hθ, rad, rad]
      ring
    rw [hradB, Real.sin_pi_sub]
    rw [show Real.arcsin (EARTH_RADIUS / (EARTH_RADIUS + alt) * Real.sin θ) = γ from rfl]
    have hdegsub : deg α = deg θ - deg γ := by
      rw [hα, deg, deg, deg]
      ring
    rw [hdegsub, hdegθ]
    ring
  have hFpos : 0 < GeocentricProjectionModel.FoV_relative_to_origin FoV alt := by
    rw [horigin]
    have : 0 < deg α := by
      rw [deg]
      positivity
    linarith
  refine ⟨hFpos, ?_⟩
  rw [horigin]
  simp only [GeocentricProjectionModel.FoV_relative_to_observer]
  rw [show (0.5 : ℝ) * (2 * deg α) = deg α by ring, rad_deg]
  have hapos : 0 < (EARTH_RADIUS + alt) * Real.cos γ - EARTH_RADIUS * Real.cos θ := by
    have hb2 : (EARTH_RADIUS + alt) * Real.cos γ
        = Real.sqrt (((EARTH_RADIUS + alt) * Real.cos γ) ^ 2) :=
      (Real.sqrt_sq (by positivity)).symm
    have hc2 : EARTH_RADIUS * Real.cos θ
        = Real.sqrt ((EARTH_RADIUS * Real.cos θ) ^ 2) :=
      (Real.sqrt_sq (by positivity)).symm
    have hsq : (EARTH_RADIUS * Real.cos θ) ^ 2
        < ((EARTH_RADIUS + alt) * Real.cos γ) ^ 2 := by
      have e1 := Real.sin_sq_add_cos_sq θ
      have e2 := Real.sin_sq_add_cos_sq γ
      have hbsinγ2 : ((EARTH_RADIUS + alt) * Real.sin γ) ^ 2
          = (EARTH_RADIUS * Real.sin θ) ^ 2 := by rw [hbsinγ]
      have key1 : ((EARTH_RADIUS + alt) * Real.cos γ) ^ 2
          = (EARTH_RADIUS + alt) ^ 2 - (EARTH_RADIUS * Real.sin θ) ^ 2 := by
        linear_combination (EARTH_RADIUS + alt) ^ 2 * e2 - hbsinγ2
      have key2 : (EARTH_RADIUS * Real.cos θ) ^ 2
          = EARTH_RADIUS ^ 2 - (EARTH_RADIUS * Real.sin θ) ^ 2 := by
        linear_combination EARTH_RADIUS ^ 2 * e1
      have key3 : EARTH_RADIUS ^ 2 < (EARTH_RADIUS + alt) ^ 2 := by nlinarith
      linarith
    calc (0:ℝ) < Real.sqrt (((EARTH_RADIUS + alt) * Real.cos γ) ^ 2)
          - Real.sqrt ((EARTH_RADIUS * Real.cos θ) ^ 2) := by
          have := Real.sqrt_lt_sqrt (by positivity) hsq
          linarith
      _ = (EARTH_RADIUS + alt) * Real.cos γ - EARTH_RADIUS * Real.cos θ := by
          rw [← hb2, ← hc2]
  have haeq : Real.sqrt ((EARTH_RADIUS + alt) ^ 2 + EARTH_RADIUS ^ 2
        - 2 * (EARTH_RADIUS + alt) * EARTH_RADIUS * Real.cos α)
      = (EARTH_RADIUS + alt) * Real.cos γ - EARTH_RADIUS * Real.cos θ := by
    rw [show (EARTH_RADIUS + alt) ^ 2 + EARTH_RADIUS ^ 2
        - 2 * (EARTH_RADIUS + alt) * EARTH_RADIUS * Real.cos α
        = ((EARTH_RADIUS + alt) * Real.cos γ - EARTH_RADIUS * Real.cos θ) ^ 2 from by
      rw [hα, Real.cos_sub]
      have e1 := Real.sin_sq_add_cos_sq θ
      have e2 := Real.sin_sq_add_cos_sq γ
      linear_combination ((EARTH_RADIUS + alt) * Real.sin γ
          - EARTH_RADIUS * Real.sin θ) * hbsinγ
        - (EARTH_RADIUS + alt) ^ 2 * e2 - EARTH_RADIUS ^ 2 * e1]
    exact Real.sqrt_sq (le_of_lt hapos)
  rw [haeq]
  have hfrac : (EARTH_RADIUS + alt)
      / ((EARTH_RADIUS + alt) * Real.cos γ - EARTH_RADIUS * Real.cos θ) * Real.sin α
      = Real.sin θ := by
    have hbsinα : (EARTH_RADIUS + alt) * Real.sin α
        = ((EARTH_RADIUS + alt) * Real.cos γ - EARTH_RADIUS * Real.cos θ)
          * Real.sin θ := by
      rw [hα, Real.sin_sub]
      linear_combination (-Real.cos θ) * hbsinγ
    rw [div_mul_eq_mul_div, hbsinα]
    field_simp
  rw [hfrac, Real.arcsin_sin (by linarith) (le_of_lt hθlt), hdegθ]
  ring

/-- The round-trip of the geocentric FoV geometry: converting a desired
observer FoV to cell sizes (which fixes the altitude at 2000 km) and
reading the effective FoV of the resulting grid back at 2000 km returns
exactly `360 - FoV`, not `FoV`. -/
theorem geo_fov_roundtrip (w h : ℕ) (hw : 1 ≤ w) (hh : 1 ≤ h) (FoV : ℝ)
    (h1 : 0 < FoV) (h2 : FoV < 180) :
    GeocentricProjectionModel.effective_FoV w h
      (GeocentricProjectionModel.cell_width_and_height_from_FoV w h FoV).1
      (GeocentricProjectionModel.cell_width_and_height_from_FoV w h FoV).2 2000
      = 360 - FoV := by
  obtain ⟨hFpos, hround⟩ := FoV_roundtrip_aux FoV 2000 h1 h2 (by norm_num)
  have hpi := Real.pi_pos
  have hwh : (0:ℝ) < (w:ℝ) ^ 2 + (h:ℝ) ^ 2 := by
    have hw1 : (1:ℝ) ≤ (w:ℝ) := by exact_mod_cast hw
    nlinarith
  set F := GeocentricProjectionModel.FoV_relative_to_origin FoV 2000 with hF
  have hXpos : 0 < Real.pi * ((w:ℝ) ^ 2 + (h:ℝ) ^ 2) := by positivity
  simp only [GeocentricProjectionModel.cell_width_and_height_from_FoV,
    GeocentricProjectionModel.effective_FoV]
  rw [show ((w:ℝ) * Real.sqrt (4 * F ^ 2 / (Real.pi * ((w:ℝ) ^ 2 + (h:ℝ) ^ 2)))) ^ 2
        + ((h:ℝ) * Real.sqrt (4 * F ^ 2 / (Real.pi * ((w:ℝ) ^ 2 + (h:ℝ) ^ 2)))) ^ 2
      = ((w:ℝ) ^ 2 + (h:ℝ) ^ 2)
        * Real.sqrt (4 * F ^ 2 / (Real.pi * ((w:ℝ) ^ 2 + (h:ℝ) ^ 2))) ^ 2 from by
    ring]
  rw [Real.sq_sqrt (by positivity)]
  rw [show Real.pi * (((w:ℝ) ^ 2 + (h:ℝ) ^ 2)
        * (4 * F ^ 2 / (Real.pi * ((w:ℝ) ^ 2 + (h:ℝ) ^ 2)))) = 4 * F ^ 2 from by
    field_simp
    ring]
  rw [show (4:ℝ) * F ^ 2 = (2 * F) ^ 2 from by ring]
  rw [Real.sqrt_sq (by linarith)]
  rw [show (0.5:ℝ) * (2 * F) = F from by ring]
  exact hround

/-- C1: the code evaluated at the failing input: for a 16x16 matrix,
desired FoV 90 degrees, the cell sizes from
`_cell_width_and_height_from_FoV` followed by `effective_FoV` at the same
2000 km altitude return 270 degrees (which is `360 - 90`), a full 180
degrees away from the desired 90. -/
theorem fov_roundtrip_failing_input :
    GeocentricProjectionModel.effective_FoV 16 16
      (GeocentricProjectionModel.cell_width_and_height_from_FoV 16 16 90).1
      (GeocentricProjectionModel.cell_width_and_height_from_FoV 16 16 90).2 2000
      = 270 ∧ (270:ℝ) - 90 = 180 := by
  constructor
  · rw [geo_fov_roundtrip 16 16 (by norm_num) (by norm_num) 90 (by norm_num)
      (by norm_num)]
    norm_num
  · norm_num

end SatToolkit
